import Mathlib

/-!
Verification of the job-listing aggregation scripts (greenhouse / lever /
browser pipelines): a shallow embedding of the filtering, normalization,
date-resolution, dedup and orchestration code, with theorems checking the
specification's claims against it.

Strings are embedded as `List Char` (named `Str`), so that Python's
`str.lower()`, `str.split(" ")`, `str.replace(..)` and `a in b` can be
given executable, inductively analysable counterparts.
-/

/-- The embedding of Python strings: a list of characters. -/
abbrev Str := List Char

namespace JobPipeline


/-- Embedding of Python `str.lower()` (character-wise, as used on the ASCII
configuration data of these scripts). -/
def lowerStr (s : Str) : Str := s.map Char.toLower

/-- Embedding of Python `str.split(" ")`: split on every single space
character, keeping empty pieces (`"a  b".split(" ") == ["a","","b"]`,
`"".split(" ") == [""]`). -/
def splitSpace : Str → List Str
  | [] => [[]]
  | c :: cs =>
    match splitSpace cs with
    | [] => [[c]]
    | t :: ts => if c == ' ' then [] :: t :: ts else (c :: t) :: ts

/-- Membership of a string in a Python set/list of strings
(`x in l`), as a Bool. -/
def memB (x : Str) (l : List Str) : Bool := l.any (fun y => y == x)

/-- `len(a.intersection(b)) > 0` on Python sets, as a Bool: some element of
`a` is an element of `b`. -/
def intersectsB (a b : List Str) : Bool := a.any (fun x => memB x b)

/-! ### FilterEngine: `search` of src/greenhouse/batch_from_api.py -/

/-- Per-organization rule sets, the `filters` dict of the batch scripts. -/
structure Filters where
  titles : List Str
  locations : List Str
  excludedRoles : List Str
  excludedLocations : List Str
deriving DecidableEq

/-- `for entry in ruleSet: if entry in tokens: break/return` — the
membership loops of greenhouse `search` (lines 74-87), which stop at the
first rule entry that is one of the query's tokens. -/
def firstMatchLoop (tokens : List Str) : List Str → Bool
  | [] => false
  | e :: rest => if memB e tokens then true else firstMatchLoop tokens rest

/-- Embedding of `search(query, filters)` from src/greenhouse/batch_from_api.py
(lines 55-92): tokenize the lowercased title and location on single spaces;
reject if the location tokens meet `excluded_locations` while
`excluded_locations` and the configured `locations` set are disjoint;
reject if any excluded role is a title token; otherwise require a title
entry among the title tokens and a location entry among the location
tokens. -/
def ghSearch (query : Str × Str) (f : Filters) : Bool :=
  let title_q := splitSpace (lowerStr query.1)
  let location_q := splitSpace (lowerStr query.2)
  if intersectsB f.excludedLocations location_q && !(intersectsB f.excludedLocations f.locations) then
    false
  else if firstMatchLoop title_q f.excludedRoles then
    false
  else
    let titles_matched := firstMatchLoop title_q f.titles
    let locations_matched := firstMatchLoop location_q f.locations
    titles_matched && locations_matched

/-- `SEARCH_FILTERS['titles']` of src/greenhouse/batch_from_api.py. -/
def GH_TITLES : List Str :=
  [("engineer".toList), ("backend".toList), ("back end".toList), ("fullstack".toList),
   ("full stack".toList), ("developer".toList), ("python".toList), ("javascript".toList),
   ("software engineer".toList), ("senior engineer".toList), ("staff engineer".toList),
   ("frontend".toList), ("front end".toList), ("mobile".toList), ("ios".toList),
   ("android".toList)]

/-- `SEARCH_FILTERS['locations']` of src/greenhouse/batch_from_api.py
(`'remote'` is commented out in the source). -/
def GH_LOCATIONS : List Str :=
  [("canada".toList), ("ireland".toList), ("dublin".toList), ("toronto".toList),
   ("singapore".toList), ("malaysia".toList), ("kuala lumpur".toList),
   ("australia".toList), ("sydney".toList), ("new zealand".toList),
   ("london".toList), ("romania".toList), ("bucharest".toList),
   ("united kingdom".toList), ("paris".toList), ("france".toList),
   ("amsterdam".toList), ("netherlands".toList), ("melbourne".toList),
   ("worldwide".toList), ("global".toList), ("europe".toList),
   ("berlin".toList), ("germany".toList), ("stockholm".toList), ("sweden".toList)]

/-- `SEARCH_FILTERS['excluded_roles']` of src/greenhouse/batch_from_api.py. -/
def GH_EXCLUDED_ROLES : List Str :=
  [("senior".toList), ("principal".toList), ("manager".toList), ("staff".toList),
   ("sr".toList), ("snr".toList), ("sr.".toList), ("snr.".toList),
   ("director".toList), ("lead".toList)]

/-- `SEARCH_FILTERS['excluded_locations']` of src/greenhouse/batch_from_api.py
(the source's set literal lists `'u.s.'` twice; a Python set keeps one copy,
and list membership is unaffected by the duplicate). -/
def GH_EXCLUDED_LOCATIONS : List Str :=
  [("usa".toList), ("u.s.a.".toList), ("u.s.a".toList), ("u.s.".toList), ("us".toList),
   ("united states".toList), ("united states of america".toList),
   ("india".toList), ("china".toList), ("korea".toList)]

/-- `SEARCH_FILTERS` of src/greenhouse/batch_from_api.py, assembled. -/
def GH_FILTERS : Filters :=
  { titles := GH_TITLES
    locations := GH_LOCATIONS
    excludedRoles := GH_EXCLUDED_ROLES
    excludedLocations := GH_EXCLUDED_LOCATIONS }

/-! ### FilterEngine: `search` of src/lever/batch_from_api.py -/

/-- `needle` is a leading segment of `hay` (used to build Python's
substring test `a in b`). -/
def leadsStr : Str → Str → Bool
  | [], _ => true
  | _ :: _, [] => false
  | a :: as, b :: bs => a == b && leadsStr as bs

/-- Python's substring containment `needle in hay`. -/
def substrB (needle : Str) : Str → Bool
  | [] => leadsStr needle []
  | c :: rest => leadsStr needle (c :: rest) || substrB needle rest

/-- `for entry in ruleSet: if entry.lower() in q.lower(): break` — the
substring-containment loops of lever `search` (lines 48-56). -/
def leverMatchLoop (q : Str) : List Str → Bool
  | [] => false
  | e :: rest => if substrB (lowerStr e) (lowerStr q) then true else leverMatchLoop q rest

/-- Embedding of `search(query, filters)` from src/lever/batch_from_api.py
(lines 38-58): the job matches when some title entry is a case-insensitive
substring of the title and some location entry is a case-insensitive
substring of the location. -/
def leverSearch (query : Str × Str) (titles locations : List Str) : Bool :=
  leverMatchLoop query.1 titles && leverMatchLoop query.2 locations

/-- `SEARCH_FILTERS['titles']` of src/lever/batch_from_api.py. -/
def LEVER_TITLES : List Str :=
  [("engineer".toList), ("backend".toList), ("back end".toList), ("fullstack".toList),
   ("full stack".toList), ("developer".toList), ("python".toList), ("javascript".toList),
   ("software engineer".toList), ("senior engineer".toList), ("staff engineer".toList),
   ("frontend".toList), ("front end".toList), ("mobile".toList), ("ios".toList),
   ("android".toList), ("devops".toList), ("platform".toList), ("infrastructure".toList),
   ("data engineer".toList)]

/-- `SEARCH_FILTERS['locations']` of src/lever/batch_from_api.py. -/
def LEVER_LOCATIONS : List Str :=
  [("canada".toList), ("ireland".toList), ("dublin".toList), ("toronto".toList),
   ("singapore".toList), ("malaysia".toList), ("kuala lumpur".toList),
   ("australia".toList), ("sydney".toList), ("new zealand".toList),
   ("london".toList), ("romania".toList), ("bucharest".toList),
   ("united kingdom".toList), ("paris".toList), ("france".toList),
   ("amsterdam".toList), ("netherlands".toList), ("melbourne".toList),
   ("remote".toList), ("worldwide".toList), ("global".toList), ("europe".toList),
   ("berlin".toList), ("germany".toList), ("stockholm".toList), ("sweden".toList),
   ("montreal".toList), ("vancouver".toList), ("ottawa".toList)]

/-- The rule sets of the spec's exclusion-override example:
`excludeLocations={"united states"}`, allowed locations `{"canada"}`,
with a title rule so that the title check passes. -/
def C1_FILTERS : Filters :=
  { titles := [("engineer".toList)]
    locations := [("canada".toList)]
    excludedRoles := []
    excludedLocations := [("united states".toList)] }

/-- The rule sets of the spec's worked filter example:
`includeTitles={"engineer"}`, `includeLocations={"singapore"}`,
`excludeRoles={"senior"}`, `excludeLocations={}`. -/
def C4_FILTERS : Filters :=
  { titles := [("engineer".toList)]
    locations := [("singapore".toList)]
    excludedRoles := [("senior".toList)]
    excludedLocations := [] }

/-- A string entry containing a space character (a multi-word rule entry). -/
def hasSpaceB (e : Str) : Bool := e.any (fun c => c == ' ')

/-- Remove every multi-word entry from a rule set. -/
def stripMultiWord (l : List Str) : List Str := l.filter (fun e => !hasSpaceB e)

/-- Remove every multi-word entry from all four rule sets. -/
def stripFilters (f : Filters) : Filters :=
  { titles := stripMultiWord f.titles
    locations := stripMultiWord f.locations
    excludedRoles := stripMultiWord f.excludedRoles
    excludedLocations := stripMultiWord f.excludedLocations }

/-! ### DateResolver: date parsing, sort keys and sorting -/

/-- Maximal leading run of decimal digits, with the remainder. -/
def digitRun : Str → Str × Str
  | [] => ([], [])
  | c :: cs =>
    if c.isDigit then
      let (ds, r) := digitRun cs
      (c :: ds, r)
    else ([], c :: cs)

/-- Numeric value of a digit string. -/
def natOfDigits (ds : Str) : Nat :=
  ds.foldl (fun acc c => acc * 10 + (c.toNat - '0'.toNat)) 0

/-- Gregorian leap-year rule, as used by Python's `datetime`. -/
def isLeapYear (y : Nat) : Bool := (y % 4 == 0) && (y % 100 != 0 || y % 400 == 0)

/-- Days in a month of the proleptic Gregorian calendar. -/
def daysInMonth (y m : Nat) : Nat :=
  if m == 2 then (if isLeapYear y then 29 else 28)
  else if m == 4 || m == 6 || m == 9 || m == 11 then 30 else 31

/-- Embedding of `datetime.strptime(s, "%Y-%m-%d")`: `%Y` consumes one to
four digits, `%m` and `%d` one or two, separated by literal dashes; any
unconsumed remainder raises (here: `none`), as does an out-of-range field
(`MINYEAR = 1`, month 1-12, day within the month). -/
def parseYMD (s : Str) : Option (Nat × Nat × Nat) :=
  let (ys, r1) := digitRun s
  if ys.length == 0 || decide (4 < ys.length) then none else
  match r1 with
  | '-' :: r1' =>
    let (ms, r2) := digitRun r1'
    if ms.length == 0 || decide (2 < ms.length) then none else
    match r2 with
    | '-' :: r2' =>
      let (ds, r3) := digitRun r2'
      if ds.length == 0 || decide (2 < ds.length) then none else
      if !r3.isEmpty then none
      else
        let y := natOfDigits ys
        let m := natOfDigits ms
        let d := natOfDigits ds
        if 1 ≤ y ∧ y ≤ 9999 ∧ 1 ≤ m ∧ m ≤ 12 ∧ 1 ≤ d ∧ d ≤ daysInMonth y m then
          some (y, m, d)
        else none
    | _ => none
  | _ => none

/-- The `sort_key` of src/greenhouse/batch_from_api.py (lines 193-197) and
src/lever/batch_from_api.py (lines 286-290), with dates encoded as
`y * 10000 + m * 100 + d` so that the order of keys is the order of
`datetime` values: `strptime(s, "%Y-%m-%d")` on success, and `datetime.min`
(= 0001-01-01, encoded 10101) when parsing raises. -/
def sortKeyYMD (s : Str) : Nat :=
  match parseYMD s with
  | some (y, m, d) => y * 10000 + m * 100 + d
  | none => 10101

/-- Stable descending insertion: `x` (earlier in the input) goes before
every element whose key does not exceed its own — the order produced by
Python's stable `sorted(..., reverse=True, key=...)`. -/
def insertDesc (key : α → Nat) (x : α) : List α → List α
  | [] => [x]
  | y :: ys => if key y ≤ key x then x :: y :: ys else y :: insertDesc key x ys

/-- Stable descending sort by a `Nat` key: `sorted(l, reverse=True, key=...)`. -/
def isortDesc (key : α → Nat) : List α → List α
  | [] => []
  | x :: xs => insertDesc key x (isortDesc key xs)

/-- A persisted greenhouse batch row (the CSV fieldnames of
src/greenhouse/batch_from_api.py line 160). -/
structure GhRow where
  company : Str
  title : Str
  token : Str
  location : Str
  url : Str
  datePublished : Str
  localDatePublished : Str
  dateUpdated : Str
  localDateUpdated : Str
deriving DecidableEq

/-- A persisted lever batch row (the CSV fieldnames of
src/lever/batch_from_api.py line 249). -/
structure LeverRow where
  company : Str
  title : Str
  id : Str
  team : Str
  location : Str
  url : Str
  datePublished : Str
  localDatePublished : Str
deriving DecidableEq

/-- `sorted(final_jobs, reverse=True, key=sort_key)` of
src/greenhouse/batch_from_api.py line 199. -/
def ghSortJobs (jobs : List GhRow) : List GhRow :=
  isortDesc (fun j => sortKeyYMD j.datePublished) jobs

/-- `sorted(final_jobs, reverse=True, key=sort_key)` of
src/lever/batch_from_api.py line 292. -/
def leverSortJobs (jobs : List LeverRow) : List LeverRow :=
  isortDesc (fun j => sortKeyYMD j.datePublished) jobs

/-- A greenhouse batch row whose stored publish date has the format
actually produced by `get_formatted_date` (line 139: `"%Y-%m-%d %H:%M:%S %Z"`). -/
def C5_rowOlder : GhRow :=
  { company := ("Stripe".toList), title := ("Engineer A".toList), token := ("1".toList)
    location := ("Dublin".toList), url := ("u1".toList)
    datePublished := ("2024-01-15 14:30:25 UTC".toList)
    localDatePublished := ("2024-01-15 22:30:25 +08".toList)
    dateUpdated := ("2024-01-15 14:30:25 UTC".toList)
    localDateUpdated := ("2024-01-15 22:30:25 +08".toList) }

/-- A second greenhouse batch row with a strictly later publish date. -/
def C5_rowNewer : GhRow :=
  { company := ("Stripe".toList), title := ("Engineer B".toList), token := ("2".toList)
    location := ("Dublin".toList), url := ("u2".toList)
    datePublished := ("2025-06-01 10:00:00 UTC".toList)
    localDatePublished := ("2025-06-01 18:00:00 +08".toList)
    dateUpdated := ("2025-06-01 10:00:00 UTC".toList)
    localDateUpdated := ("2025-06-01 18:00:00 +08".toList) }

/-- A lever batch row whose date resolution failed: `get_published_date`
returns the sentinel `"1970-01-01 00:00:00"` (line 236). -/
def C5_leverUnresolved : LeverRow :=
  { company := ("Netflix".toList), title := ("Engineer C".toList), id := ("3".toList)
    team := ("".toList), location := ("Remote".toList), url := ("u3".toList)
    datePublished := ("1970-01-01 00:00:00".toList)
    localDatePublished := ("1970-01-01 00:00:00".toList) }

/-- A lever batch row with a resolved publish date, in the format produced
by `get_published_date` (line 135: `"%Y-%m-%d %H:%M:%S %Z"`, `%Z` empty on
a naive datetime). -/
def C5_leverResolved : LeverRow :=
  { company := ("Netflix".toList), title := ("Engineer D".toList), id := ("4".toList)
    team := ("".toList), location := ("Remote".toList), url := ("u4".toList)
    datePublished := ("2024-03-10 09:00:00 ".toList)
    localDatePublished := ("2024-03-10 17:00:00 ".toList) }

/-! ### DateResolver: the `createdAt` fallback of src/lever/batch_from_api.py -/

/-- Days from 1970-01-01 to the given Gregorian date (years ≥ 1970). -/
def daysSinceEpoch (y m d : Nat) : Nat :=
  (List.range (y - 1970)).foldl
    (fun acc i => acc + (if isLeapYear (1970 + i) then 366 else 365)) 0
  + (List.range (m - 1)).foldl (fun acc i => acc + daysInMonth y (i + 1)) 0
  + (d - 1)

/-- Exactly `k` decimal digits, returning their value and the remainder. -/
def digitsN : Nat → Nat → Str → Option (Nat × Str)
  | 0, acc, s => some (acc, s)
  | _ + 1, _, [] => none
  | k + 1, acc, c :: cs =>
    if c.isDigit then digitsN k (acc * 10 + (c.toNat - '0'.toNat)) cs else none

/-- Consume one expected character. -/
def expectChar (c : Char) : Str → Option Str
  | [] => none
  | x :: xs => if x == c then some xs else none

/-- `created_at.replace('Z', '+00:00')` (line 148): a single-character
pattern, so each `'Z'` expands in place. -/
def expandZ (s : Str) : Str :=
  s.foldr (fun c acc => (if c == 'Z' then ("+00:00".toList) else [c]) ++ acc) []

/-- The `YYYY-MM-DD` date prefix of an ISO-8601 string. -/
def parseDatePart (s : Str) : Option ((Nat × Nat × Nat) × Str) := do
  let (y, r1) ← digitsN 4 0 s
  let r2 ← expectChar '-' r1
  let (mo, r3) ← digitsN 2 0 r2
  let r4 ← expectChar '-' r3
  let (d, r5) ← digitsN 2 0 r4
  some ((y, mo, d), r5)

/-- The `HH:MM:SS` time segment of an ISO-8601 string. -/
def parseTimePart (s : Str) : Option ((Nat × Nat × Nat) × Str) := do
  let (h, r1) ← digitsN 2 0 s
  let r2 ← expectChar ':' r1
  let (mi, r3) ← digitsN 2 0 r2
  let r4 ← expectChar ':' r3
  let (sec, r5) ← digitsN 2 0 r4
  some ((h, mi, sec), r5)

/-- A `±HH:MM` timezone offset, in seconds. -/
def parseOffsetPart (s : Str) : Option (Int × Str) := do
  let (sign, r0) ← (match s with
    | '+' :: cs => some ((1 : Int), cs)
    | '-' :: cs => some ((-1 : Int), cs)
    | _ => none)
  let (oh, r1) ← digitsN 2 0 r0
  let r2 ← expectChar ':' r1
  let (om, r3) ← digitsN 2 0 r2
  if oh ≤ 23 ∧ om ≤ 59 then some (sign * (oh * 3600 + om * 60), r3) else none

/-- Instant (epoch milliseconds) denoted by an offset-bearing ISO-8601
string, modelling `datetime.fromisoformat` on inputs of the shape
`YYYY-MM-DD[T ]HH:MM:SS±HH:MM` with years ≥ 1970 — the shape the code
feeds it after the `'Z'` replacement. -/
def parseIsoAware (s : Str) : Option Int := do
  let (ymd, r5) ← parseDatePart s
  let r6 ← (match r5 with
    | c :: cs => if c == 'T' || c == ' ' then some cs else none
    | [] => none)
  let (hms, r11) ← parseTimePart r6
  let (off, r15) ← parseOffsetPart r11
  if r15.isEmpty ∧ 1970 ≤ ymd.1 ∧ 1 ≤ ymd.2.1 ∧ ymd.2.1 ≤ 12 ∧ 1 ≤ ymd.2.2
      ∧ ymd.2.2 ≤ daysInMonth ymd.1 ymd.2.1
      ∧ hms.1 ≤ 23 ∧ hms.2.1 ≤ 59 ∧ hms.2.2 ≤ 59 then
    some ((((daysSinceEpoch ymd.1 ymd.2.1 ymd.2.2) * 86400
      + hms.1 * 3600 + hms.2.1 * 60 + hms.2.2 : Int) - off) * 1000)
  else none

/-- The `createdAt` value a detail-endpoint payload may carry. -/
inductive CreatedAt where
  | intVal (n : Int)
  | strVal (s : Str)
  | absent
deriving DecidableEq

/-- Instant (epoch milliseconds) resolved from a detail-endpoint
`createdAt` field by `get_published_date` of src/lever/batch_from_api.py
(lines 127-161): an integer above `1e12` is taken as milliseconds and is
otherwise multiplied up from seconds (the code divides by 1000 and feeds
seconds to `fromtimestamp`; both denote the same instant, rendered here in
milliseconds); a string goes through the `'Z'` replacement and ISO-8601
parsing; a failed parse or an absent field falls through to the next
strategy (`none`). -/
def leverCreatedAtInstantMs : CreatedAt → Option Int
  | .intVal n => some (if n > 10 ^ 12 then n else n * 1000)
  | .strVal s => parseIsoAware (expandZ s)
  | .absent => none

/-! ### Normalizer: the location field of the lever adapters -/

/-- The raw `categories.location` value of a lever payload: a string, a
list of strings, or absent (`job.get("categories", {}).get("location", [])`
defaults to `[]`). -/
inductive LocField where
  | strVal (s : Str)
  | listVal (l : List Str)
  | absent
deriving DecidableEq

/-- `", ".join(l)`. -/
def joinSep (sep : Str) : List Str → Str
  | [] => []
  | [x] => x
  | x :: y :: rest => x ++ sep ++ joinSep sep (y :: rest)

/-- Embedding of the location normalization of `get_all_jobs` in
src/lever/batch_from_api.py (lines 91-97) and src/lever/from_api.py
(lines 106-112): a string is taken as-is, a non-empty list is joined with
`", "`, and anything else — the empty list that also stands for a missing
field, in particular — becomes `"Location not specified"`. -/
def normalizeLoc : LocField → Str
  | .strVal s => s
  | .listVal [] => ("Location not specified".toList)
  | .listVal (x :: xs) => joinSep (", ".toList) (x :: xs)
  | .absent => ("Location not specified".toList)

/-! ### Pipeline orchestration: the per-organization loop of `main` -/

/-- Embedding of the `for company in COMPANIES: try: process_company ...
except Exception: continue` loop of `main` in src/greenhouse/batch_from_api.py
(lines 222-233) and src/lever/batch_from_api.py (lines 315-326): each
organization's whole chain is run behind a per-organization boundary
(`procOrg`, which may fail), a failure skips only that organization, and
every success is kept with its produced results. -/
def mainLoop (procOrg : α → Except ε β) : List α → List (α × β)
  | [] => []
  | c :: cs =>
    match procOrg c with
    | .ok r => (c, r) :: mainLoop procOrg cs
    | .error _ => mainLoop procOrg cs

/-! ### Normalizer/DedupStore: token extraction and string replacement -/

/-- Worker for `replaceAll`, structurally recursive on a fuel counter so
that it reduces inside the kernel; every step consumes at least one
character, so fuel equal to the string length never runs out. -/
def replaceAllAux (pat repl : Str) : Nat → Str → Str
  | _, [] => []
  | 0, s => s
  | fuel + 1, c :: cs =>
    if pat.isEmpty then c :: replaceAllAux pat repl fuel cs
    else if leadsStr pat (c :: cs) then
      repl ++ replaceAllAux pat repl fuel (cs.drop (pat.length - 1))
    else c :: replaceAllAux pat repl fuel cs

/-- Python `s.replace(pat, repl)`: left-to-right, non-overlapping
replacement of every occurrence (the scripts only call it with a
non-empty pattern; an empty pattern is mapped to the identity here). -/
def replaceAll (pat repl : Str) (s : Str) : Str :=
  replaceAllAux pat repl s.length s

/-- The pattern literal `"remote"` that
src/greenhouse/batch_from_frontend.py strips from locations (line 138). -/
def REMOTE : Str := ("remote".toList)

/-- Maximal leading run of characters other than `'/'` (the `[^/]+` piece
of the token-extraction regexes), with the remainder. -/
def takeNonSlash : Str → Str × Str
  | [] => ([], [])
  | c :: cs =>
    if c == '/' then ([], c :: cs)
    else
      let (xs, r) := takeNonSlash cs
      (c :: xs, r)

/-- Tail of the regexes `lit[^/]+/(\d+)` after the literal: a non-empty
non-slash segment, a slash, then the captured digit run. -/
def segDigitsTail (rest : Str) : Option Str :=
  let (seg, r2) := takeNonSlash rest
  match seg, r2 with
  | _ :: _, '/' :: r3 =>
    let (ds, _) := digitRun r3
    if ds.isEmpty then none else some ds
  | _, _ => none

/-- `re.search(lit + "[^/]+/(\d+)", s)`: try every start position left to
right, matching the literal, a non-empty slash-free segment, a slash, and
at least one digit; return the captured digits. -/
def litSegDigits (lit : Str) : Str → Option Str
  | [] => none
  | c :: cs =>
    if leadsStr lit (c :: cs) then
      match segDigitsTail ((c :: cs).drop lit.length) with
      | some ds => some ds
      | none => litSegDigits lit cs
    else litSegDigits lit cs

/-- `re.search(lit + "(\d+)", s)`: the captured digit run right after the
leftmost occurrence of the literal that is followed by a digit. -/
def digitsAfterLit (lit : Str) : Str → Option Str
  | [] => none
  | c :: cs =>
    if leadsStr lit (c :: cs) then
      let (ds, _) := digitRun ((c :: cs).drop lit.length)
      if ds.isEmpty then digitsAfterLit lit cs else some ds
    else digitsAfterLit lit cs

/-- `extract_token` of src/from_browser.py (lines 43-53): the
`/jobs/listing/[^/]+/(\d+)` pattern, then `/listing/[^/]+/(\d+)`. -/
def extractTokenBrowser (url : Str) : Option Str :=
  match litSegDigits ("/jobs/listing/".toList) url with
  | some t => some t
  | none => litSegDigits ("/listing/".toList) url

/-- `extract_token` of src/greenhouse/batch_from_frontend.py (lines 26-39):
`gh_jid=(\d+)`, then `/listing/[^/]+/(\d+)`, then `/jobs/listing/[^/]+/(\d+)`. -/
def extractTokenFrontend (url : Str) : Option Str :=
  match digitsAfterLit ("gh_jid=".toList) url with
  | some t => some t
  | none =>
    match litSegDigits ("/listing/".toList) url with
    | some t => some t
    | none => litSegDigits ("/jobs/listing/".toList) url

/-! ### DedupStore and persistence of src/from_browser.py -/

/-- A raw listing extracted by the browser layer (`{Title, Location, URL}`). -/
structure Job where
  title : Str
  location : Str
  url : Str
deriving DecidableEq

/-- A persisted row of the browser/frontend stores
(fieldnames `Token, Title, Location, URL, Date Published`). -/
structure Row where
  token : Str
  title : Str
  location : Str
  url : Str
  datePublished : Str
deriving DecidableEq

/-- The URL gate literal `"jobs/listing"` of src/from_browser.py. -/
def JOBS_LISTING : Str := ("jobs/listing".toList)

/-- `load_existing_tokens` of src/from_browser.py (lines 113-125): the
tokens re-extracted from the URL column of every persisted row whose URL
contains `"jobs/listing"`. -/
def browserLoadTokens (store : List Row) : List Str :=
  store.filterMap
    (fun r => if substrB JOBS_LISTING r.url then extractTokenBrowser r.url else none)

/-- The dedup loop of `save_to_csv` in src/from_browser.py (lines 134-146):
keep, in input order, each job whose URL contains `"jobs/listing"`, whose
token extracts, and whose token is not in the seen set; the kept job is
enriched with its token and the date fetched for that token (`pubDate`
stands for the network-dependent `get_published_date`). -/
def browserNewJobs (seen : List Str) (pubDate : Str → Str) : List Job → List Row
  | [] => []
  | j :: rest =>
    if substrB JOBS_LISTING j.url then
      match extractTokenBrowser j.url with
      | none => browserNewJobs seen pubDate rest
      | some t =>
        if memB t seen then browserNewJobs seen pubDate rest
        else { token := t, title := j.title, location := j.location, url := j.url,
               datePublished := pubDate t } :: browserNewJobs seen pubDate rest
    else browserNewJobs seen pubDate rest

/-- `save_to_csv` of src/from_browser.py (lines 128-162) as a store
transformer: append the deduplicated new rows (appending nothing when the
dedup loop kept nothing, which the code short-circuits with
"No new jobs to add."). -/
def browserSave (pubDate : Str → Str) (store : List Row) (jobs : List Job) : List Row :=
  store ++ browserNewJobs (browserLoadTokens store) pubDate jobs

/-- The enrichment applied to a kept job (token and fetched date added). -/
def browserEnrich (pubDate : Str → Str) (j : Job) : Row :=
  let t := (extractTokenBrowser j.url).getD []
  { token := t, title := j.title, location := j.location, url := j.url,
    datePublished := pubDate t }

/-- `save_to_csv` of src/greenhouse/batch_from_api.py (lines 152-166) as a
store transformer: it opens the CSV in append mode and writes every row of
`jobs` unconditionally — there is no seen-token set in this script (header
housekeeping is not modelled). -/
def ghBatchSave (store : List GhRow) (jobs : List GhRow) : List GhRow :=
  store ++ jobs

/-- A browser-extracted job used to instantiate the dedup theorem. -/
def C2_browserJob : Job :=
  { title := ("Engineer".toList), location := ("Dublin".toList)
    url := ("https://stripe.com/jobs/listing/swe/123".toList) }

/-- The row the dedup loop produces for `C2_browserJob`. -/
def C2_browserRow : Row :=
  { token := ("123".toList), title := ("Engineer".toList), location := ("Dublin".toList)
    url := ("https://stripe.com/jobs/listing/swe/123".toList)
    datePublished := ("2024-01-01".toList) }

/-! ### The frontend batch script: src/greenhouse/batch_from_frontend.py
with the configuration of src/greenhouse/companies.py -/

/-- `_EXCLUDED_ROLE_KEYWORDS` of src/greenhouse/companies.py (lines 11-15). -/
def EXCLUDED_ROLE_KEYWORDS : List Str :=
  [("senior".toList), ("principal".toList), ("manager".toList), ("staff".toList),
   ("sr".toList), ("snr".toList), ("sr.".toList), ("snr.".toList),
   ("director".toList), ("lead".toList)]

/-- `_EXCLUDED_LOCATIONS` of src/greenhouse/companies.py (lines 16-20; the
set literal lists `'u.s.'` twice, kept once by the Python set). -/
def EXCLUDED_LOCATIONS_CFG : List Str :=
  [("usa".toList), ("u.s.a.".toList), ("u.s.a".toList), ("u.s.".toList), ("us".toList),
   ("united states".toList), ("united states of america".toList),
   ("india".toList), ("china".toList), ("korea".toList)]

/-- `_DEFAULT_LOCATIONS['stripe']` of src/greenhouse/companies.py
(lines 38-47), the fallback allowed-location set for organizations missing
from the dictionary. -/
def STRIPE_DEFAULT_LOCATIONS : List Str :=
  [("canada".toList), ("ireland".toList), ("dublin".toList), ("toronto".toList),
   ("singapore".toList), ("malaysia".toList), ("kuala lumpur".toList),
   ("australia".toList), ("sydney".toList), ("new zealand".toList),
   ("london".toList), ("romania".toList), ("bucharest".toList),
   ("united kingdom".toList), ("paris".toList), ("france".toList),
   ("amsterdam".toList), ("netherlands".toList), ("melbourne".toList),
   ("remote".toList), ("worldwide".toList), ("global".toList), ("europe".toList),
   ("berlin".toList), ("germany".toList), ("stockholm".toList), ("sweden".toList)]

/-- The fields of `OrgConfig` (src/greenhouse/companies.py lines 54-111)
that `save_to_csv` consults. -/
structure OrgCfg where
  useExceptions : Bool
  excludeSeniorRoles : Bool
  excludeUnwantedLocations : Bool
  defaultLocations : List Str
deriving DecidableEq

/-- `OrgConfig.get_excluded_roles` (line 108). -/
def getExcludedRoles (o : OrgCfg) : List Str :=
  if o.excludeSeniorRoles then EXCLUDED_ROLE_KEYWORDS else []

/-- `OrgConfig.get_excluded_locations` (line 111). -/
def getExcludedLocations (o : OrgCfg) : List Str :=
  if o.excludeUnwantedLocations then EXCLUDED_LOCATIONS_CFG else []

/-- The URL gate literal `"gh_jid"` of src/greenhouse/batch_from_frontend.py. -/
def GH_JID : Str := ("gh_jid".toList)

/-- `load_existing_tokens` of src/greenhouse/batch_from_frontend.py
(lines 114-126). -/
def feLoadTokens (store : List Row) : List Str :=
  store.filterMap
    (fun r => if substrB GH_JID r.url then extractTokenFrontend r.url else none)

/-- What one iteration of the `save_to_csv` job loop does with a job. -/
inductive FEAction where
  | skip
  | keep (r : Row)
  | raiseUnbound
deriving DecidableEq

/-- The URL-gated dedup-and-enrich step of `save_to_csv` in
src/greenhouse/batch_from_frontend.py (lines 160-170). -/
def feUrlStep (seen : List Str) (pubDate : Str → Str) (j : Job) : FEAction :=
  if substrB GH_JID j.url then
    match extractTokenFrontend j.url with
    | none => .skip
    | some t =>
      if memB t seen then .skip
      else .keep (Row.mk t j.title j.location j.url (pubDate t))
  else .skip

/-- One iteration of the `save_to_csv` job loop of
src/greenhouse/batch_from_frontend.py (lines 137-170): the
special-exceptions location filter, the senior-roles filter, then the
unwanted-locations filter whose second conjunct reads the local variable
`org_locations` — a variable that is only ever assigned inside the
special-exceptions block, so evaluating it with `special_exceptions`
false raises `UnboundLocalError` (a `NameError`); finally the URL-gated
dedup step. `location_words` is the lowercased location with `"remote"`
removed, split on spaces. -/
def feStep (org : OrgCfg) (seen : List Str) (pubDate : Str → Str) (j : Job) : FEAction :=
  let locationWords := splitSpace (replaceAll REMOTE [] (lowerStr j.location))
  if org.useExceptions && !(intersectsB locationWords org.defaultLocations) then
    .skip
  else if org.excludeSeniorRoles
      && intersectsB (splitSpace (lowerStr j.title)) (getExcludedRoles org) then
    .skip
  else if org.excludeUnwantedLocations
      && intersectsB (getExcludedLocations org) locationWords then
    if org.useExceptions then
      (if !(intersectsB locationWords org.defaultLocations) then .skip
       else feUrlStep seen pubDate j)
    else .raiseUnbound
  else feUrlStep seen pubDate j

/-- Exceptions that can escape `save_to_csv` of
src/greenhouse/batch_from_frontend.py. -/
inductive PyExc where
  | unboundLocalOrgLocations
  | valueErrorBadDate
deriving DecidableEq

/-- The whole job loop of `save_to_csv` (lines 136-170): an unhandled
exception aborts it, otherwise the kept rows are returned in input order. -/
def feProcess (org : OrgCfg) (seen : List Str) (pubDate : Str → Str) :
    List Job → Except PyExc (List Row)
  | [] => .ok []
  | j :: rest =>
    match feStep org seen pubDate j with
    | .raiseUnbound => .error .unboundLocalOrgLocations
    | .skip => feProcess org seen pubDate rest
    | .keep r =>
      match feProcess org seen pubDate rest with
      | .error e => .error e
      | .ok l => .ok (r :: l)

/-- `save_to_csv` of src/greenhouse/batch_from_frontend.py (lines 129-189)
as a store transformer: run the job loop against the tokens loaded from
the store; on an exception nothing is written; with no new jobs the store
is returned unchanged ("No new jobs to add."); otherwise the new rows are
sorted descending by `strptime(date, "%Y-%m-%d")` — with no try/except, so
an unparseable date raises `ValueError` — and appended. -/
def feSave (org : OrgCfg) (pubDate : Str → Str) (store : List Row) (jobs : List Job) :
    Except PyExc (List Row) :=
  match feProcess org (feLoadTokens store) pubDate jobs with
  | .error e => .error e
  | .ok [] => .ok store
  | .ok (r :: rs) =>
    if (r :: rs).all (fun x => (parseYMD x.datePublished).isSome) then
      .ok (store ++ isortDesc (fun x => sortKeyYMD x.datePublished) (r :: rs))
    else .error .valueErrorBadDate

/-- An organization configured as in the C9 claim
(`exclude_unwanted_locations` true, `special_exceptions` false), with the
senior-roles filter also on, as in `main` (lines 195-198). -/
def C9_org : OrgCfg :=
  { useExceptions := false
    excludeSeniorRoles := true
    excludeUnwantedLocations := true
    defaultLocations := STRIPE_DEFAULT_LOCATIONS }

/-- A job whose location tokens meet the excluded-locations set but whose
title trips the senior-roles filter first. -/
def C9_seniorJob : Job :=
  { title := ("Senior Engineer".toList)
    location := ("India".toList)
    url := ("https://stripe.com/jobs/search?gh_jid=7206401".toList) }

/-- A job whose location tokens meet the excluded-locations set and that
reaches the unwanted-locations check. -/
def C9_engineerJob : Job :=
  { title := ("Engineer".toList)
    location := ("India".toList)
    url := ("https://stripe.com/jobs/search?gh_jid=7206401".toList) }

/-! ### Theorems -/

theorem memB_iff (x : Str) (l : List Str) : memB x l = true ↔ x ∈ l := by
  simp only [memB, List.any_eq_true, beq_iff_eq]
  constructor
  · rintro ⟨y, hy, rfl⟩; exact hy
  · intro hx; exact ⟨x, hx, rfl⟩

theorem intersectsB_iff (a b : List Str) :
    intersectsB a b = true ↔ ∃ x, x ∈ a ∧ x ∈ b := by
  simp [intersectsB, List.any_eq_true, memB_iff]

theorem intersectsB_comm (a b : List Str) : intersectsB a b = intersectsB b a := by
  rcases h₁ : intersectsB a b with _ | _ <;> rcases h₂ : intersectsB b a with _ | _ <;> try rfl
  · rw [intersectsB_iff] at h₂
    rcases h₂ with ⟨x, hb, ha⟩
    have : intersectsB a b = true := (intersectsB_iff a b).mpr ⟨x, ha, hb⟩
    rw [h₁] at this; cases this
  · rw [intersectsB_iff] at h₁
    rcases h₁ with ⟨x, ha, hb⟩
    have : intersectsB b a = true := (intersectsB_iff b a).mpr ⟨x, hb, ha⟩
    rw [h₂] at this; cases this

theorem splitSpace_ne_nil : ∀ s : Str, splitSpace s ≠ [] := by
  intro s
  cases s with
  | nil => simp [splitSpace]
  | cons c cs =>
    simp only [splitSpace]
    rcases splitSpace cs with _ | ⟨t, ts⟩
    · simp
    · by_cases hc : (c == ' ') = true <;> simp [hc]

/-- No piece produced by `splitSpace` contains a space character. -/
theorem splitSpace_no_space : ∀ (s : Str) (t : Str), t ∈ splitSpace s → ' ' ∉ t := by
  intro s
  induction s with
  | nil =>
    intro t ht
    simp [splitSpace] at ht
    simp [ht]
  | cons c cs ih =>
    intro t ht
    simp only [splitSpace] at ht
    rcases h : splitSpace cs with _ | ⟨p, ps⟩
    · exact absurd h (splitSpace_ne_nil cs)
    · rw [h] at ht
      by_cases hc : c = ' '
      · subst hc
        simp at ht
        rcases ht with h1 | h1 | h1
        · simp [h1]
        · have hp := ih p (by rw [h]; exact List.mem_cons_self p ps)
          rw [h1]; exact hp
        · exact ih t (by rw [h]; exact List.mem_cons_of_mem p h1)
      · have hcb : (c == ' ') = false := by simp [hc]
        simp [hcb] at ht
        rcases ht with h1 | h1
        · rw [h1]
          intro hmem
          rcases List.mem_cons.mp hmem with h2 | h2
          · exact hc h2.symm
          · exact ih p (by rw [h]; exact List.mem_cons_self p ps) h2
        · exact ih t (by rw [h]; exact List.mem_cons_of_mem p h1)

/-- The membership loop is the intersection test: iterating the rule set
looking for an entry among the query tokens succeeds exactly when the two
lists intersect. -/
theorem firstMatchLoop_eq_intersectsB (tokens : List Str) (l : List Str) :
    firstMatchLoop tokens l = intersectsB l tokens := by
  induction l with
  | nil => rfl
  | cons e rest ih =>
    simp only [firstMatchLoop, intersectsB, List.any_cons]
    rcases h : memB e tokens with _ | _
    · simpa [h] using ih
    · simp [h]

theorem hasSpaceB_iff (e : Str) : hasSpaceB e = true ↔ ' ' ∈ e := by
  simp only [hasSpaceB, List.any_eq_true, beq_iff_eq]
  constructor
  · rintro ⟨c, hc, rfl⟩; exact hc
  · intro hc; exact ⟨' ', hc, rfl⟩

/-- A multi-word entry is never one of the whitespace-delimited tokens. -/
theorem memB_splitSpace_of_space (e : Str) (s : Str) (he : hasSpaceB e = true) :
    memB e (splitSpace s) = false := by
  rcases h : memB e (splitSpace s) with _ | _
  · rfl
  · exact absurd ((hasSpaceB_iff e).mp he)
      (splitSpace_no_space s e ((memB_iff e (splitSpace s)).mp h))

theorem intersectsB_cons (x : Str) (l b : List Str) :
    intersectsB (x :: l) b = (memB x b || intersectsB l b) := by
  simp [intersectsB]

theorem stripMultiWord_cons_keep (e : Str) (rest : List Str) (he : hasSpaceB e = false) :
    stripMultiWord (e :: rest) = e :: stripMultiWord rest := by
  simp [stripMultiWord, List.filter_cons, he]

theorem stripMultiWord_cons_drop (e : Str) (rest : List Str) (he : hasSpaceB e = true) :
    stripMultiWord (e :: rest) = stripMultiWord rest := by
  simp [stripMultiWord, List.filter_cons, he]

/-- Dropping multi-word entries does not change the membership loop over
whitespace tokens. -/
theorem firstMatchLoop_strip (s : Str) (l : List Str) :
    firstMatchLoop (splitSpace s) (stripMultiWord l) = firstMatchLoop (splitSpace s) l := by
  induction l with
  | nil => rfl
  | cons e rest ih =>
    rcases he : hasSpaceB e with _ | _
    · rw [stripMultiWord_cons_keep e rest he]
      simp only [firstMatchLoop, ih]
    · rw [stripMultiWord_cons_drop e rest he, ih]
      have hm : memB e (splitSpace s) = false := memB_splitSpace_of_space e s he
      simp [firstMatchLoop, hm]

/-- Dropping multi-word entries does not change the intersection test with
whitespace tokens. -/
theorem intersectsB_strip (l : List Str) (s : Str) :
    intersectsB (stripMultiWord l) (splitSpace s) = intersectsB l (splitSpace s) := by
  induction l with
  | nil => rfl
  | cons e rest ih =>
    rcases he : hasSpaceB e with _ | _
    · rw [stripMultiWord_cons_keep e rest he, intersectsB_cons, intersectsB_cons, ih]
    · rw [stripMultiWord_cons_drop e rest he, ih, intersectsB_cons]
      have hm : memB e (splitSpace s) = false := memB_splitSpace_of_space e s he
      simp [hm]

/-- C1. Exclusion-location veto with override: whenever a listing's
lowercased location tokens meet `excludedLocations` and miss the
organization's allowed `locations` set, `search` rejects the listing; and
on the spec's example rule sets, a listing located "United States, Canada"
is not rejected while a listing located "United States" alone is. -/
theorem C1_exclusion_location_veto :
    (∀ (f : Filters) (title loc : Str),
      intersectsB (splitSpace (lowerStr loc)) f.excludedLocations = true →
      intersectsB (splitSpace (lowerStr loc)) f.locations = false →
      ghSearch (title, loc) f = false)
    ∧ ghSearch (("Engineer".toList), ("United States, Canada".toList)) C1_FILTERS = true
    ∧ ghSearch (("Engineer".toList), ("United States".toList)) C1_FILTERS = false := by
  refine ⟨?_, by decide, by decide⟩
  intro f title loc h1 h2
  have hloc : firstMatchLoop (splitSpace (lowerStr loc)) f.locations = false := by
    rw [firstMatchLoop_eq_intersectsB, intersectsB_comm]; exact h2
  simp only [ghSearch]
  split
  · rfl
  · split
    · rfl
    · simp [hloc]

theorem C1_exclusion_location_veto_witness :
    ghSearch (("Engineer".toList), ("India".toList)) GH_FILTERS = false :=
  C1_exclusion_location_veto.1 GH_FILTERS ("Engineer".toList) ("India".toList)
    (by decide) (by decide)

/-- C3 counterexample: the lever batch filter matches by substring
containment, not token-set intersection — the title "Engineering" matches
even though its token set does not intersect the title rule set. -/
theorem C3_counterexample :
    leverSearch (("Engineering".toList), ("Canada".toList)) LEVER_TITLES LEVER_LOCATIONS = true
    ∧ intersectsB LEVER_TITLES (splitSpace (lowerStr ("Engineering".toList))) = false := by
  exact ⟨by decide, by decide⟩

/-- C3 (amended). The greenhouse batch filter is case-insensitive and
token-based: a match requires the lowercased whitespace tokens of the title
and the location to intersect the respective rule sets, and substring
matches such as "engineer" inside "Engineering" do not fire. The lever
batch filter instead uses case-insensitive substring containment. -/
theorem C3_token_matching_amended :
    (∀ (q : Str × Str) (f : Filters), ghSearch q f = true →
      intersectsB f.titles (splitSpace (lowerStr q.1)) = true ∧
      intersectsB f.locations (splitSpace (lowerStr q.2)) = true)
    ∧ ghSearch (("Engineering".toList), ("Canada".toList)) GH_FILTERS = false
    ∧ leverSearch (("Engineering".toList), ("Canada".toList)) LEVER_TITLES LEVER_LOCATIONS = true := by
  refine ⟨?_, by decide, by decide⟩
  intro q f h
  simp only [ghSearch] at h
  split at h
  · cases h
  · split at h
    · cases h
    · rw [Bool.and_eq_true] at h
      rw [firstMatchLoop_eq_intersectsB] at h
      rw [firstMatchLoop_eq_intersectsB] at h
      exact h

theorem C3_token_matching_amended_witness :
    intersectsB GH_FILTERS.titles (splitSpace (lowerStr ("Engineer".toList))) = true ∧
    intersectsB GH_FILTERS.locations (splitSpace (lowerStr ("Canada".toList))) = true :=
  C3_token_matching_amended.1 (("Engineer".toList), ("Canada".toList)) GH_FILTERS (by decide)

/-- C4 counterexample: with the spec's worked-example rule sets, the
listing titled "Software Engineer" located "Singapore, Remote" is rejected
by the code (the claim says it is accepted): splitting on spaces leaves
the comma attached, so the token "singapore," never equals "singapore". -/
theorem C4_counterexample :
    ghSearch (("Software Engineer".toList), ("Singapore, Remote".toList)) C4_FILTERS = false := by
  decide

/-- C4 (amended). On the worked-example rule sets the filter rejects
"Senior Software Engineer"/"Singapore" (role veto), also rejects
"Software Engineer"/"Singapore, Remote" (the comma-bearing token
"singapore," misses `includeLocations`), and accepts
"Software Engineer"/"Singapore". -/
theorem C4_worked_example_amended :
    ghSearch (("Senior Software Engineer".toList), ("Singapore".toList)) C4_FILTERS = false
    ∧ ghSearch (("Software Engineer".toList), ("Singapore, Remote".toList)) C4_FILTERS = false
    ∧ ghSearch (("Software Engineer".toList), ("Singapore".toList)) C4_FILTERS = true := by
  exact ⟨by decide, by decide, by decide⟩

/-- C10. Every multi-word entry of the greenhouse batch `SEARCH_FILTERS`
is inert: removing all entries containing a space changes no `search`
decision, for every query. -/
theorem C10_multiword_entries_inert (q : Str × Str) :
    ghSearch q GH_FILTERS = ghSearch q (stripFilters GH_FILTERS) := by
  obtain ⟨title, loc⟩ := q
  have h1 : intersectsB (stripMultiWord GH_EXCLUDED_LOCATIONS) (splitSpace (lowerStr loc))
      = intersectsB GH_EXCLUDED_LOCATIONS (splitSpace (lowerStr loc)) :=
    intersectsB_strip GH_EXCLUDED_LOCATIONS (lowerStr loc)
  have h2 : intersectsB GH_EXCLUDED_LOCATIONS GH_LOCATIONS = false := by decide
  have h3 : intersectsB (stripMultiWord GH_EXCLUDED_LOCATIONS) (stripMultiWord GH_LOCATIONS)
      = false := by decide
  have h4 : firstMatchLoop (splitSpace (lowerStr title)) (stripMultiWord GH_EXCLUDED_ROLES)
      = firstMatchLoop (splitSpace (lowerStr title)) GH_EXCLUDED_ROLES :=
    firstMatchLoop_strip (lowerStr title) GH_EXCLUDED_ROLES
  have h5 : firstMatchLoop (splitSpace (lowerStr title)) (stripMultiWord GH_TITLES)
      = firstMatchLoop (splitSpace (lowerStr title)) GH_TITLES :=
    firstMatchLoop_strip (lowerStr title) GH_TITLES
  have h6 : firstMatchLoop (splitSpace (lowerStr loc)) (stripMultiWord GH_LOCATIONS)
      = firstMatchLoop (splitSpace (lowerStr loc)) GH_LOCATIONS :=
    firstMatchLoop_strip (lowerStr loc) GH_LOCATIONS
  simp only [ghSearch, stripFilters, GH_FILTERS]
  rw [h1, h2, h3, h4, h5, h6]

/-- C5. The claim fails on the code and the code contradicts its own
"Sort by date (most recent first)" comment: the stored date strings carry
a time-of-day suffix that `strptime(.., "%Y-%m-%d")` rejects, so every row
(resolved or unresolved) gets the key `datetime.min`; the sort therefore
leaves an older-first pair in input order, and the lever `Unresolved`
sentinel row does not sort after a resolved row. -/
theorem C5_sort_divergence :
    parseYMD (("2024-01-15 14:30:25 UTC".toList)) = none
    ∧ parseYMD (("2025-06-01 10:00:00 UTC".toList)) = none
    ∧ sortKeyYMD C5_rowOlder.datePublished = sortKeyYMD C5_rowNewer.datePublished
    ∧ ghSortJobs [C5_rowOlder, C5_rowNewer] = [C5_rowOlder, C5_rowNewer]
    ∧ parseYMD (("1970-01-01 00:00:00".toList)) = none
    ∧ leverSortJobs [C5_leverUnresolved, C5_leverResolved]
        = [C5_leverUnresolved, C5_leverResolved] := by
  exact ⟨by decide, by decide, by decide, by decide, by decide, by decide⟩

/-- C6. Date fallback equivalence: a detail payload carrying the integer
`1700000000000` (milliseconds, since it exceeds `1e12`) and one carrying
the string `"2023-11-14T22:13:20Z"` resolve to the same instant. -/
theorem C6_date_fallback_equivalence :
    leverCreatedAtInstantMs (.intVal 1700000000000) = some 1700000000000
    ∧ leverCreatedAtInstantMs (.strVal ("2023-11-14T22:13:20Z".toList))
        = some 1700000000000 := by
  exact ⟨by decide, by decide⟩

/-- C8. Location normalization: a list-valued location is joined into one
display string with the stable `", "` separator, and an empty or missing
location list yields the sentinel `"Location not specified"`, never the
empty string. -/
theorem C8_location_normalization :
    (∀ l : List Str, l ≠ [] → normalizeLoc (.listVal l) = joinSep (", ".toList) l)
    ∧ normalizeLoc (.listVal []) = ("Location not specified".toList)
    ∧ normalizeLoc .absent = ("Location not specified".toList)
    ∧ normalizeLoc (.listVal []) ≠ ([] : Str)
    ∧ normalizeLoc .absent ≠ ([] : Str) := by
  refine ⟨?_, rfl, rfl, by decide, by decide⟩
  intro l hl
  cases l with
  | nil => exact absurd rfl hl
  | cons x xs => rfl

theorem C8_location_normalization_witness :
    normalizeLoc (.listVal [("Singapore".toList), ("Remote".toList)])
      = joinSep (", ".toList) [("Singapore".toList), ("Remote".toList)] :=
  C8_location_normalization.1 [("Singapore".toList), ("Remote".toList)] (by decide)

/-- C7. Partial-failure isolation: for every run over a sequence of
organizations, every organization whose own chain succeeds appears with
its results in the run's output, no matter which other organizations
fail; in particular with A ok, B failing, C ok, the run still produces
A's and C's results. -/
theorem C7_partial_failure_isolation :
    (∀ (procOrg : α → Except ε β) (orgs : List α) (c : α) (r : β),
      c ∈ orgs → procOrg c = .ok r → (c, r) ∈ mainLoop procOrg orgs)
    ∧ (∀ (procOrg : α → Except ε β) (a b c : α) (ra rc : β) (e : ε),
      procOrg a = .ok ra → procOrg b = .error e → procOrg c = .ok rc →
      mainLoop procOrg [a, b, c] = [(a, ra), (c, rc)]) := by
  constructor
  · intro procOrg orgs c r hmem hok
    induction orgs with
    | nil => cases hmem
    | cons x xs ih =>
      rcases List.mem_cons.mp hmem with h | h
      · subst h
        simp [mainLoop, hok]
      · simp only [mainLoop]
        rcases hx : procOrg x with _ | _
        · exact ih h
        · exact List.mem_cons_of_mem _ (ih h)
  · intro procOrg a b c ra rc e ha hb hc
    simp [mainLoop, ha, hb, hc]

theorem C7_partial_failure_isolation_witness :
    ((0 : Nat), (10 : Nat)) ∈ mainLoop
      (fun n : Nat => if n == 0 then (.ok 10 : Except Unit Nat) else .error ())
      [0, 1, 2] :=
  C7_partial_failure_isolation.1
    (fun n : Nat => if n == 0 then (.ok 10 : Except Unit Nat) else .error ())
    [0, 1, 2] 0 10 (by decide) rfl

theorem memB_append (x : Str) (a b : List Str) :
    memB x (a ++ b) = (memB x a || memB x b) := by
  simp [memB, List.any_append]

theorem memB_cons (x y : Str) (l : List Str) :
    memB x (y :: l) = ((y == x) || memB x l) := by
  simp [memB]

/-- If every gated, extractable job's token is already in the seen set,
the dedup loop keeps nothing. -/
theorem browserNewJobs_nil_of_seen (pubDate : Str → Str) :
    ∀ (jobs : List Job) (seen : List Str),
      (∀ j ∈ jobs, substrB JOBS_LISTING j.url = true →
        ∀ t, extractTokenBrowser j.url = some t → memB t seen = true) →
      browserNewJobs seen pubDate jobs = [] := by
  intro jobs
  induction jobs with
  | nil => intro seen _; rfl
  | cons j rest ih =>
    intro seen h
    have hrest := fun j' hj' => h j' (List.mem_cons_of_mem _ hj')
    rcases hg : substrB JOBS_LISTING j.url with _ | _
    · simp only [browserNewJobs, hg]
      simpa using ih seen hrest
    · rcases he : extractTokenBrowser j.url with _ | t
      · simp only [browserNewJobs, hg, he]
        simpa using ih seen hrest
      · have hm : memB t seen = true := h j (List.mem_cons_self j rest) hg t he
        simp only [browserNewJobs, hg, he, hm]
        simpa using ih seen hrest

/-- Every gated, extractable job's token appears in the seen set extended
with the tokens re-extracted from the run's own kept rows. -/
theorem browserNewJobs_covers (pubDate : Str → Str) :
    ∀ (jobs : List Job) (seen : List Str) (j : Job) (t : Str),
      j ∈ jobs → substrB JOBS_LISTING j.url = true →
      extractTokenBrowser j.url = some t →
      memB t (seen ++ browserLoadTokens (browserNewJobs seen pubDate jobs)) = true := by
  intro jobs
  induction jobs with
  | nil => intro seen j t hj _ _; cases hj
  | cons x rest ih =>
    intro seen j t hj hg he
    rcases List.mem_cons.mp hj with rfl | hj'
    · rcases hm : memB t seen with _ | _
      · simp only [browserNewJobs, hg, he, hm]
        simp [browserLoadTokens, List.filterMap_cons, hg, he, memB_append, memB_cons]
      · simp [memB_append, hm]
    · rcases hgx : substrB JOBS_LISTING x.url with _ | _
      · simp only [browserNewJobs, hgx]
        simpa using ih seen j t hj' hg he
      · rcases hex : extractTokenBrowser x.url with _ | tx
        · simp only [browserNewJobs, hgx, hex]
          simpa using ih seen j t hj' hg he
        · rcases hmx : memB tx seen with _ | _
          · have hcov := ih seen j t hj' hg he
            simp only [browserNewJobs, hgx, hex, hmx]
            simp only [memB_append, Bool.or_eq_true] at hcov
            simp only [Bool.false_eq_true, if_false, browserLoadTokens,
              List.filterMap_cons, hgx, hex, memB_append, memB_cons]
            rcases hcov with h1 | h1
            · simp [h1]
            · simp only [browserLoadTokens] at h1
              simp [List.filterMap_cons, hgx, hex, memB_cons, memB_append, h1]
          · simp only [browserNewJobs, hgx, hex, hmx]
            simpa using ih seen j t hj' hg he

/-- C2 counterexample: the greenhouse batch `save_to_csv` has no dedup —
re-running it with the same upstream rows appends them again, so the
second run does not append zero rows. -/
theorem C2_counterexample :
    ghBatchSave (ghBatchSave [] [C5_rowOlder]) [C5_rowOlder]
      ≠ ghBatchSave [] [C5_rowOlder] := by
  decide

/-- C2 (amended). In the browser pipeline (src/from_browser.py) dedup is
idempotent: re-running `save_to_csv` against the same upstream jobs leaves
the store unchanged (every token persisted in run 1 is re-loaded into the
seen set of run 2 and its listing is excluded); the dedup loop keeps only
listings whose token is absent from the seen set and preserves the input
order. The greenhouse batch `save_to_csv`, by contrast, performs no dedup
and re-appends duplicates. -/
theorem C2_idempotent_dedup_amended :
    (∀ (pubDate : Str → Str) (store : List Row) (jobs : List Job),
      browserSave pubDate (browserSave pubDate store jobs) jobs
        = browserSave pubDate store jobs)
    ∧ (∀ (seen : List Str) (pubDate : Str → Str) (jobs : List Job) (r : Row),
      r ∈ browserNewJobs seen pubDate jobs → memB r.token seen = false)
    ∧ (∀ (seen : List Str) (pubDate : Str → Str) (jobs : List Job),
      List.Sublist (browserNewJobs seen pubDate jobs) (jobs.map (browserEnrich pubDate))) := by
  refine ⟨?_, ?_, ?_⟩
  · intro pubDate store jobs
    have hnil : browserNewJobs
        (browserLoadTokens (browserSave pubDate store jobs)) pubDate jobs = [] := by
      apply browserNewJobs_nil_of_seen
      intro j hj hg t he
      have := browserNewJobs_covers pubDate jobs (browserLoadTokens store) j t hj hg he
      simpa [browserSave, browserLoadTokens, List.filterMap_append, memB_append] using this
    simp only [browserSave] at hnil ⊢
    rw [hnil, List.append_nil]
  · intro seen pubDate jobs
    induction jobs with
    | nil => intro r hr; cases hr
    | cons x rest ih =>
      intro r hr
      rcases hgx : substrB JOBS_LISTING x.url with _ | _
      · simp only [browserNewJobs, hgx] at hr
        exact ih r (by simpa using hr)
      · rcases hex : extractTokenBrowser x.url with _ | tx
        · simp only [browserNewJobs, hgx, hex] at hr
          exact ih r (by simpa using hr)
        · rcases hmx : memB tx seen with _ | _
          · simp only [browserNewJobs, hgx, hex, hmx] at hr
            simp only [Bool.false_eq_true, if_false] at hr
            rcases List.mem_cons.mp hr with rfl | hr'
            · simpa using hmx
            · exact ih r hr'
          · simp only [browserNewJobs, hgx, hex, hmx] at hr
            exact ih r (by simpa using hr)
  · intro seen pubDate jobs
    induction jobs with
    | nil => simp [browserNewJobs]
    | cons x rest ih =>
      rcases hgx : substrB JOBS_LISTING x.url with _ | _
      · simp only [browserNewJobs, hgx, List.map_cons]
        exact List.Sublist.cons _ (by simpa using ih)
      · rcases hex : extractTokenBrowser x.url with _ | tx
        · simp only [browserNewJobs, hgx, hex, List.map_cons]
          exact List.Sublist.cons _ (by simpa using ih)
        · rcases hmx : memB tx seen with _ | _
          · simp only [browserNewJobs, hgx, hex, hmx, List.map_cons]
            simp only [Bool.false_eq_true, if_false]
            have hrow : browserEnrich pubDate x
                = Row.mk tx x.title x.location x.url (pubDate tx) := by
              simp [browserEnrich, hex]
            rw [← hrow]
            exact List.Sublist.cons₂ _ (by simpa using ih)
          · simp only [browserNewJobs, hgx, hex, hmx, List.map_cons]
            exact List.Sublist.cons _ (by simpa using ih)

theorem C2_idempotent_dedup_amended_witness :
    memB C2_browserRow.token [("999".toList)] = false :=
  C2_idempotent_dedup_amended.2.1 [("999".toList)] (fun _ => ("2024-01-01".toList))
    [C2_browserJob] C2_browserRow (by decide)

/-- C9 counterexample: not every job whose lowercased location tokens meet
the excluded-locations set triggers the `NameError` — a job that the
senior-roles filter skips first never reaches the broken check, and
`save_to_csv` returns normally with the store unchanged. -/
theorem C9_counterexample :
    feSave C9_org (fun _ => ("2024-01-01".toList)) [] [C9_seniorJob] = .ok []
    ∧ intersectsB (getExcludedLocations C9_org)
        (splitSpace (lowerStr C9_seniorJob.location)) = true := by
  exact ⟨rfl, by decide⟩

/-- C9 (amended). For every organization with `exclude_unwanted_locations`
true and `special_exceptions` false, any job that reaches the
unwanted-locations check (it is not skipped by the senior-roles filter)
and whose location tokens (lowercased, `"remote"` removed) meet the
excluded-locations set makes `save_to_csv` evaluate the unbound local
`org_locations`, raising `UnboundLocalError` (a `NameError`) and aborting
persistence of the whole batch with no rows written. -/
theorem C9_unbound_org_locations_amended :
    ∀ (org : OrgCfg) (seen : List Str) (pubDate : Str → Str) (store : List Row)
      (jobs : List Job) (j : Job),
      org.useExceptions = false →
      org.excludeUnwantedLocations = true →
      j ∈ jobs →
      (org.excludeSeniorRoles
        && intersectsB (splitSpace (lowerStr j.title)) (getExcludedRoles org)) = false →
      intersectsB (getExcludedLocations org)
        (splitSpace (replaceAll REMOTE [] (lowerStr j.location))) = true →
      feProcess org seen pubDate jobs = .error .unboundLocalOrgLocations
      ∧ feSave org pubDate store jobs = .error .unboundLocalOrgLocations := by
  intro org seen pubDate store jobs j hue hexu hmem hrole hloc
  have hproc : ∀ sn : List Str, feProcess org sn pubDate jobs = .error .unboundLocalOrgLocations := by
    intro sn
    induction jobs with
    | nil => cases hmem
    | cons x rest ih =>
      rcases List.mem_cons.mp hmem with rfl | hj'
      · have hstep : feStep org sn pubDate j = .raiseUnbound := by
          simp only [feStep, hue, hexu, hrole]
          simp [hloc]
        simp [feProcess, hstep]
      · have hrest := ih hj'
        rcases hs : feStep org sn pubDate x with _ | r | _
        · simp [feProcess, hs, hrest]
        · simp [feProcess, hs, hrest]
        · simp [feProcess, hs]
  exact ⟨hproc seen, by simp [feSave, hproc (feLoadTokens store)]⟩

theorem C9_unbound_org_locations_amended_witness :
    feSave C9_org (fun _ => ("2024-01-01".toList)) [] [C9_engineerJob]
      = .error .unboundLocalOrgLocations :=
  (C9_unbound_org_locations_amended C9_org [] (fun _ => ("2024-01-01".toList)) []
    [C9_engineerJob] C9_engineerJob rfl rfl (by decide) (by decide) (by decide)).2

end JobPipeline
